import Mathlib

/-!
Shallow embedding of the three MapReduce jobs of this repository
(`nettoyer_valider.py`, `analyse_ventes.py`, `top_produits.py`) together
with theorems settling the specification claims about them.

Monetary amounts and prices are modelled as rationals (the Python code uses
floats; no claim depends on float rounding error), quantities as integers,
and text as Lean strings.  Fallible steps return `Option`.
-/

set_option maxRecDepth 20000

attribute [local semireducible] Rat.add Rat.sub Rat.inv Rat.mul

/-- Python `s.strip()`: whitespace removed from both ends, modelled over the
character list. -/
def pyStrip (s : String) : String :=
  ⟨((s.toList.dropWhile Char.isWhitespace).reverse.dropWhile Char.isWhitespace).reverse⟩

/-- Python `s[:n]`: the first `n` characters. -/
def pyTake (s : String) (n : ℕ) : String := ⟨s.toList.take n⟩

/-- Python `s.upper()`, modelled character by character. -/
def pyUpper (s : String) : String := ⟨s.toList.map Char.toUpper⟩

/-- Python `s.lower()`, modelled character by character. -/
def pyLower (s : String) : String := ⟨s.toList.map Char.toLower⟩

/-- Numeric value of a list of decimal digit characters, most significant first. -/
def digitsVal (cs : List Char) : ℕ :=
  cs.foldl (fun a c => 10 * a + (c.toNat - 48)) 0

/-- Modelled from Python `float(s)` as applied by the jobs to already-stripped
field text: an optional sign followed by digits with an optional fractional
part (at least one digit overall, `"1."` and `".5"` both accepted, `"."` and
`""` both refused).  Exponent forms, `inf`/`nan` and underscore digit
separators are not modelled; no claim depends on them. -/
def pyFloat (s : String) : Option ℚ :=
  let cs := s.toList
  let sgn : ℚ := match cs with
    | '-' :: _ => -1
    | _ => 1
  let body : List Char := match cs with
    | '-' :: r => r
    | '+' :: r => r
    | _ => cs
  let ip := body.takeWhile Char.isDigit
  let rest := body.drop ip.length
  match rest with
  | [] => if ip.isEmpty then none else some (sgn * digitsVal ip)
  | '.' :: fp =>
    if fp.all Char.isDigit && (!ip.isEmpty || !fp.isEmpty) then
      some (sgn * ((digitsVal ip : ℚ) + (digitsVal fp : ℚ) / (10 : ℚ) ^ fp.length))
    else none
  | _ => none

/-- Modelled from Python `int(s)` on already-stripped text: an optional sign
followed by at least one digit.  Underscore separators are not modelled. -/
def pyInt (s : String) : Option ℤ :=
  let cs := s.toList
  let sgn : ℤ := match cs with
    | '-' :: _ => -1
    | _ => 1
  let body : List Char := match cs with
    | '-' :: r => r
    | '+' :: r => r
    | _ => cs
  if !body.isEmpty && body.all Char.isDigit then some (sgn * digitsVal body) else none

/-- Auxiliary character-list matcher for `pyStartsWith`. -/
def swGo : List Char → List Char → Bool
  | [], _ => true
  | _ :: _, [] => false
  | a :: as, b :: bs => a == b && swGo as bs

/-- Python `s.startswith(p)`, modelled as a character-list prefix test. -/
def pyStartsWith (s p : String) : Bool := swGo p.toList s.toList

/-- Python `s.strip(c)` for the double-quote character, used by the second-stage
mappers on the tag in front of the tab (`parts[0].strip('"')`). -/
def stripQuotes (s : String) : String :=
  ⟨((s.toList.dropWhile (· = '"')).reverse.dropWhile (· = '"')).reverse⟩

/-- State of the csv field splitter: at the start of a field, inside an
unquoted field, or inside a quoted field. -/
inductive CsvMode
  | startF
  | inF
  | inQ

/-- Character-level state machine modelling the single-row behaviour of
Python `csv.reader` with delimiter `,`, quotechar `"`, escapechar `\` and
`skipinitialspace=True` (the dialect used by `DataCleaningJob.mapper`):
spaces directly after a delimiter are skipped, a field starting with `"` runs
to the closing quote with `""` denoting a literal quote, and a backslash
makes the following character literal. -/
def csvSplitGo : List Char → CsvMode → List Char → List String → List String
  | [], _, cur, acc => acc ++ [⟨cur⟩]
  | ' ' :: rest, .startF, cur, acc => csvSplitGo rest .startF cur acc
  | ',' :: rest, .startF, _, acc => csvSplitGo rest .startF [] (acc ++ [⟨[]⟩])
  | '"' :: rest, .startF, _, acc => csvSplitGo rest .inQ [] acc
  | '\\' :: c :: rest, .startF, cur, acc => csvSplitGo rest .inF (cur ++ [c]) acc
  | ['\\'], .startF, cur, acc => acc ++ [⟨cur⟩]
  | c :: rest, .startF, cur, acc => csvSplitGo rest .inF (cur ++ [c]) acc
  | ',' :: rest, .inF, cur, acc => csvSplitGo rest .startF [] (acc ++ [⟨cur⟩])
  | '\\' :: c :: rest, .inF, cur, acc => csvSplitGo rest .inF (cur ++ [c]) acc
  | ['\\'], .inF, cur, acc => acc ++ [⟨cur⟩]
  | c :: rest, .inF, cur, acc => csvSplitGo rest .inF (cur ++ [c]) acc
  | '"' :: '"' :: rest, .inQ, cur, acc => csvSplitGo rest .inQ (cur ++ ['"']) acc
  | '"' :: ',' :: rest, .inQ, cur, acc => csvSplitGo rest .startF [] (acc ++ [⟨cur⟩])
  | ['"'], .inQ, cur, acc => acc ++ [⟨cur⟩]
  | '"' :: c :: rest, .inQ, cur, acc => csvSplitGo rest .inF (cur ++ [c]) acc
  | '\\' :: c :: rest, .inQ, cur, acc => csvSplitGo rest .inQ (cur ++ [c]) acc
  | ['\\'], .inQ, cur, acc => acc ++ [⟨cur⟩]
  | c :: rest, .inQ, cur, acc => csvSplitGo rest .inQ (cur ++ [c]) acc

/-- The fields of one csv line under the dialect of `csvSplitGo`. -/
def csvSplit (line : String) : List String := csvSplitGo line.toList .startF [] []

/-- Leap-year rule of the Gregorian calendar, as used by Python `datetime`. -/
def isLeapYear (y : ℕ) : Bool :=
  (y % 4 == 0 && y % 100 != 0) || y % 400 == 0

/-- Number of days of month `m` (1-12); 0 for anything else. -/
def daysInMonth (m : ℕ) (leap : Bool) : ℕ :=
  match m with
  | 1 => 31
  | 2 => if leap then 29 else 28
  | 3 => 31
  | 4 => 30
  | 5 => 31
  | 6 => 30
  | 7 => 31
  | 8 => 31
  | 9 => 30
  | 10 => 31
  | 11 => 30
  | 12 => 31
  | _ => 0

/-- Shape check for the 19-character date-time base `YYYY-MM-DD?HH:MM:SS`
with separator space or `T`; returns the numeric components. -/
def dateTimeShape : List Char → Option (ℕ × ℕ × ℕ × ℕ × ℕ × ℕ)
  | [y1, y2, y3, y4, '-', m1, m2, '-', d1, d2, sep, h1, h2, ':', n1, n2, ':', s1, s2] =>
    if [y1, y2, y3, y4, m1, m2, d1, d2, h1, h2, n1, n2, s1, s2].all Char.isDigit &&
        (sep == ' ' || sep == 'T') then
      some (digitsVal [y1, y2, y3, y4], digitsVal [m1, m2], digitsVal [d1, d2],
        digitsVal [h1, h2], digitsVal [n1, n2], digitsVal [s1, s2])
    else none
  | _ => none

/-- Shape check for the optional timezone suffix `(Z|[+-]HH:MM)?`. -/
def tzShapeOk : List Char → Bool
  | [] => true
  | ['Z'] => true
  | [sg, a, b, ':', c, d] => (sg == '+' || sg == '-') && [a, b, c, d].all Char.isDigit
  | _ => false

/-- Semantic validity of the date-time components under Python `datetime`
(year 1-9999, real calendar day, 24h clock).  `strptime` leap seconds are not
modelled; no claim depends on them. -/
def dateComponentsOk (y m d h mi s : ℕ) : Bool :=
  decide (1 ≤ y ∧ y ≤ 9999 ∧ 1 ≤ m ∧ m ≤ 12 ∧ 1 ≤ d ∧
    d ≤ daysInMonth m (isLeapYear y) ∧ h ≤ 23 ∧ mi ≤ 59 ∧ s ≤ 59)

/-- Modelled from `DataCleaningJob._is_valid_date`: the regular expression
`^(\d{4}-\d{2}-\d{2})[ T](\d{2}:\d{2}:\d{2})(Z|[+-]\d{2}:\d{2})?$` followed by
a strict `datetime.strptime` of the date-time base. -/
def is_valid_date (s : String) : Bool :=
  let cs := s.toList
  match dateTimeShape (cs.take 19) with
  | none => false
  | some (y, m, d, h, mi, sec) => tzShapeOk (cs.drop 19) && dateComponentsOk y m d h mi sec

namespace DataCleaningJob

/-- Schema v1, 19 columns (`DataCleaningJob.mapper_init`). -/
def schema_v1 : List String :=
  ["transaction_id", "ts", "user_id", "country", "city",
   "product_id", "category", "subcategory", "unit_price", "qty",
   "discount_code", "payment_type", "device", "channel", "referrer",
   "is_return", "return_date", "status", "notes"]

/-- Schema v2, 21 columns: v1 plus `coupon_value` and `shipping_cost`. -/
def schema_v2 : List String := schema_v1 ++ ["coupon_value", "shipping_cost"]

/-- Error taxonomy of the cleaning mapper.  The `parse_error` arm corresponds
to exceptions raised outside the fragment modelled here (the csv split is
modelled as total); no modelled path produces it. -/
inductive RejectError
  | too_few_columns
  | missing_transaction_id
  | invalid_date
  | invalid_price
  | invalid_quantity
  | non_numeric_values
  | parse_error
  deriving DecidableEq, Repr

/-- A cleaned record: field name to trimmed value, in schema order. -/
abbrev Record := List (String × String)

/-- Result of the per-row part of the cleaning mapper. -/
inductive Emission
  | reject (e : RejectError)
  | valid (tid : String) (data : Record)
  deriving DecidableEq, Repr

/-- Modelled from `DataCleaningJob.mapper`, the part after the csv split:
column-count policy, transaction-id, date and numeric validation, and the
construction of the field-name to value record. -/
def mapperRow (schema : List String) (row0 : List String) : Emission :=
  if row0.length < schema.length then .reject .too_few_columns
  else
    let row := row0.take schema.length
    let tid := pyStrip (row.getD 0 "")
    let ts := pyStrip (row.getD 1 "")
    let unit_price := pyStrip (row.getD 8 "")
    let qty := pyStrip (row.getD 9 "")
    if tid = "" then .reject .missing_transaction_id
    else if ¬ is_valid_date ts then .reject .invalid_date
    else
      match pyFloat unit_price, pyInt qty with
      | some price, some quantity =>
        if price < 0 ∨ 1000000 < price then .reject .invalid_price
        else if 1000 < |quantity| then .reject .invalid_quantity
        else .valid tid (schema.enum.map fun p => (p.2, pyStrip (row.getD p.1 "")))
      | _, _ => .reject .non_numeric_values

/-- What the cleaning mapper does with a line before parsing it. -/
inductive LineAction
  | dropEmpty
  | dropComment
  | dropHeader
  | process
  deriving DecidableEq, Repr

/-- Modelled from the first three checks of `DataCleaningJob.mapper`: empty or
whitespace-only lines, `#` comments, and the header check
`line.strip().startswith('transaction_id')`. -/
def linePhase (line : String) : LineAction :=
  if pyStrip line = "" then .dropEmpty
  else if pyStartsWith (pyStrip line) "#" then .dropComment
  else if pyStartsWith (pyStrip line) "transaction_id" then .dropHeader
  else .process

/-- First csv field of a raw line. -/
def firstField (line : String) : String := (csvSplit line).headD ""

/-- Value emitted by the cleaning mapper: a valid record (under its
transaction-id key) or rejection information (under the `REJECT` key). -/
inductive DedupVal
  | valid (data : Record)
  | rejectInfo (e : RejectError) (src : String)
  deriving DecidableEq, Repr

/-- Modelled from `DataCleaningJob.mapper` as a whole: `none` when the line is
silently dropped, otherwise the single `(key, value)` emission.  Rejections
carry the first 100 characters of the line (`line[:100]`). -/
def mapperEmit (schema : List String) (line : String) : Option (String × DedupVal) :=
  match linePhase line with
  | .process =>
    match mapperRow schema (csvSplit line) with
    | .reject e => some ("REJECT", .rejectInfo e (pyTake line 100))
    | .valid tid data => some (tid, .valid data)
  | _ => none

/-- Output of the deduplication reducer: a `(CLEAN, record)` pair or a
re-emitted `(REJECT, value)` pair. -/
inductive OutKV
  | clean (data : Record)
  | rejected (v : DedupVal)
  deriving DecidableEq, Repr

/-- Modelled from `DataCleaningJob.reducer`: for the `REJECT` key every value
is re-emitted; for any other key the first value of the delivered collection
is kept and, if it is a valid record, emitted as `(CLEAN, record)`.  The
grouping engine never invokes a reducer on an empty collection; the `[]` case
is unreachable and returns no output. -/
def reducer (key : String) (values : List DedupVal) : List OutKV :=
  if key = "REJECT" then values.map .rejected
  else
    match values with
    | [] => []
    | first :: _ =>
      match first with
      | .valid data => [.clean data]
      | _ => []

end DataCleaningJob

namespace DataCleaningJob

/-- A match of a non-empty pattern forces the scanned list to start with the
pattern's first character. -/
theorem swGo_head_eq {a : Char} {as cs : List Char} (h : swGo (a :: as) cs = true) :
    ∃ c cs2, cs = c :: cs2 ∧ a = c := by
  cases cs with
  | nil => simp [swGo] at h
  | cons c cs2 =>
    simp only [swGo, Bool.and_eq_true, beq_iff_eq] at h
    exact ⟨c, cs2, rfl, h.1⟩

/-- A line that passes the comment check cannot also pass the header check:
the two relevant first characters differ. -/
theorem hash_tid_exclusive (t : String) (h : pyStartsWith t "#" = true) :
    pyStartsWith t "transaction_id" = false := by
  unfold pyStartsWith at h ⊢
  have h1 : ("#" : String).toList = ['#'] := rfl
  have h2 : ("transaction_id" : String).toList = 't' :: "ransaction_id".toList := rfl
  rw [h1] at h
  rw [h2]
  obtain ⟨c, cs2, hc, he⟩ := swGo_head_eq h
  rw [hc, ← he]
  simp only [swGo]
  rw [show (('t' == '#') : Bool) = false from rfl]
  simp

/-- C6 (amended): the cleaning mapper drops a line as a header exactly when the
whitespace-stripped line starts with the text `transaction_id` (the schema's
first column name); in particular a line whose first field merely begins with
that name, without being equal to it, is dropped as well. -/
theorem header_drop_iff_startswith (line : String) :
    linePhase line = LineAction.dropHeader ↔
      pyStartsWith (pyStrip line) "transaction_id" = true := by
  unfold linePhase
  by_cases h0 : pyStrip line = ""
  · rw [if_pos h0, h0]
    have he : pyStartsWith "" "transaction_id" = false := rfl
    simp [he]
  · rw [if_neg h0]
    by_cases h1 : pyStartsWith (pyStrip line) "#" = true
    · rw [if_pos h1]
      have h2 := hash_tid_exclusive _ h1
      simp [h2]
    · rw [if_neg h1]
      by_cases h2 : pyStartsWith (pyStrip line) "transaction_id" = true
      · simp [h2]
      · simp [h2]

/-- C6 counterexample: the line `transaction_id9,...` is dropped as a header by
the code (the check is `startswith`), although its first csv field is
`transaction_id9`, not the schema's first column name; so "dropped exactly when
the first field equals `transaction_id`" fails on this input. -/
theorem header_startswith_counterexample :
    linePhase "transaction_id9,2024-01-01 00:00:00,x" = LineAction.dropHeader ∧
    firstField "transaction_id9,2024-01-01 00:00:00,x" ≠ "transaction_id" ∧
    ¬ (linePhase "transaction_id9,2024-01-01 00:00:00,x" = LineAction.dropHeader ↔
        firstField "transaction_id9,2024-01-01 00:00:00,x" = "transaction_id") := by
  refine ⟨by decide, by decide, ?_⟩
  intro h
  exact absurd (h.1 (by decide)) (by decide)

end DataCleaningJob

namespace DataCleaningJob

/-- Any emission of the cleaning mapper under a key other than `REJECT` is a
valid record: rejections are only ever keyed by `REJECT`. -/
theorem mapperEmit_valid_of_ne_reject {schema : List String} {line k : String}
    {v : DedupVal} (h : mapperEmit schema line = some (k, v)) (hk : k ≠ "REJECT") :
    ∃ d, v = DedupVal.valid d := by
  unfold mapperEmit at h
  split at h
  · split at h
    · simp only [Option.some.injEq, Prod.mk.injEq] at h
      exact absurd h.1.symm hk
    · simp only [Option.some.injEq, Prod.mk.injEq] at h
      exact ⟨_, h.2.symm⟩
  · simp at h

/-- C1 (amended): for every group of raw input lines sharing a transaction_id
other than the reserved tag `REJECT`, of which at least one is valid, the
deduplication reducer emits exactly one `(CLEAN, record)` pair, and the
survivor is the first record of the collection delivered to it. -/
theorem dedup_keeps_first_valid (schema : List String) (tid : String)
    (vs : List DedupVal) (hk : tid ≠ "REJECT") (hne : vs ≠ [])
    (hsrc : ∀ v ∈ vs, ∃ line, mapperEmit schema line = some (tid, v)) :
    ∃ d, vs.head? = some (DedupVal.valid d) ∧ reducer tid vs = [OutKV.clean d] := by
  cases vs with
  | nil => exact absurd rfl hne
  | cons first rest =>
    obtain ⟨line, hline⟩ := hsrc first (by simp)
    obtain ⟨d, hd⟩ := mapperEmit_valid_of_ne_reject hline hk
    subst hd
    exact ⟨d, rfl, by simp [reducer, hk]⟩

/-- Record produced by the cleaning mapper from `lineRejectTid`. -/
def recRejectTid : Record :=
  [("transaction_id", "REJECT"), ("ts", "2024-03-05 10:00:00"), ("user_id", "U1"),
   ("country", "FR"), ("city", "Paris"), ("product_id", "P1"), ("category", "Cat"),
   ("subcategory", "Sub"), ("unit_price", "19.99"), ("qty", "3"), ("discount_code", ""),
   ("payment_type", "CARD"), ("device", "web"), ("channel", "site"), ("referrer", ""),
   ("is_return", "0"), ("return_date", ""), ("status", "OK"), ("notes", "")]

/-- A fully valid raw line whose transaction_id happens to be `REJECT`. -/
def lineRejectTid : String :=
  "REJECT,2024-03-05 10:00:00,U1,FR,Paris,P1,Cat,Sub,19.99,3,,CARD,web,site,,0,,OK,"

/-- C1 counterexample: a valid raw line whose transaction_id is the literal
string `REJECT` is keyed by the sentinel, so the reducer re-emits it under
`REJECT` and never emits a `(CLEAN, record)` pair for its group. -/
theorem dedup_reject_tid_counterexample :
    mapperEmit schema_v1 lineRejectTid = some ("REJECT", DedupVal.valid recRejectTid) ∧
    reducer "REJECT" [DedupVal.valid recRejectTid] =
      [OutKV.rejected (DedupVal.valid recRejectTid)] ∧
    ((reducer "REJECT" [DedupVal.valid recRejectTid]).all fun kv =>
      match kv with
      | OutKV.clean _ => false
      | OutKV.rejected _ => true) = true := by
  refine ⟨by decide, by decide, by decide⟩

/-- Record produced by the cleaning mapper from `lineT1a`. -/
def recT1a : Record :=
  [("transaction_id", "T1"), ("ts", "2024-03-05 10:00:00"), ("user_id", "U1"),
   ("country", "FR"), ("city", "Paris"), ("product_id", "P1"), ("category", "Cat"),
   ("subcategory", "Sub"), ("unit_price", "19.99"), ("qty", "3"), ("discount_code", ""),
   ("payment_type", "CARD"), ("device", "web"), ("channel", "site"), ("referrer", ""),
   ("is_return", "0"), ("return_date", ""), ("status", "OK"), ("notes", "")]

/-- Record produced by the cleaning mapper from `lineT1b`. -/
def recT1b : Record :=
  [("transaction_id", "T1"), ("ts", "2024-03-05 11:00:00"), ("user_id", "U2"),
   ("country", "DE"), ("city", "Berlin"), ("product_id", "P2"), ("category", "Cat"),
   ("subcategory", "Sub"), ("unit_price", "5.0"), ("qty", "1"), ("discount_code", ""),
   ("payment_type", "CASH"), ("device", "app"), ("channel", "site"), ("referrer", ""),
   ("is_return", "0"), ("return_date", ""), ("status", "OK"), ("notes", "")]

/-- First duplicate submission for transaction `T1`. -/
def lineT1a : String :=
  "T1,2024-03-05 10:00:00,U1,FR,Paris,P1,Cat,Sub,19.99,3,,CARD,web,site,,0,,OK,"

/-- Second duplicate submission for transaction `T1`. -/
def lineT1b : String :=
  "T1,2024-03-05 11:00:00,U2,DE,Berlin,P2,Cat,Sub,5.0,1,,CASH,app,site,,0,,OK,"

/-- C1 witness: two duplicate valid lines for transaction `T1`; the reducer
keeps exactly the first delivered record. -/
theorem dedup_keeps_first_valid_witness :
    ∃ d, ([DedupVal.valid recT1a, DedupVal.valid recT1b] : List DedupVal).head? =
        some (DedupVal.valid d) ∧
      reducer "T1" [DedupVal.valid recT1a, DedupVal.valid recT1b] = [OutKV.clean d] := by
  refine dedup_keeps_first_valid schema_v1 "T1" _ (by decide) (by decide) ?_
  intro v hv
  simp only [List.mem_cons, List.not_mem_nil, or_false] at hv
  rcases hv with h | h <;> subst h
  · exact ⟨lineT1a, by decide⟩
  · exact ⟨lineT1b, by decide⟩

end DataCleaningJob

namespace DataCleaningJob

/-- A 21-column row (v2-shaped data) used to check truncation under v1. -/
def row21 : List String :=
  ["T1", "2024-03-05 10:00:00", "U1", "FR", "Paris", "P1", "Cat", "Sub", "19.99", "3",
   "", "CARD", "web", "site", "", "0", "", "OK", "", "5.00", "2.50"]

/-- The valid record built from `row21` under schema v1: only the 19 v1
columns appear; `coupon_value` and `shipping_cost` are discarded. -/
def rec21v1 : Record :=
  [("transaction_id", "T1"), ("ts", "2024-03-05 10:00:00"), ("user_id", "U1"),
   ("country", "FR"), ("city", "Paris"), ("product_id", "P1"), ("category", "Cat"),
   ("subcategory", "Sub"), ("unit_price", "19.99"), ("qty", "3"), ("discount_code", ""),
   ("payment_type", "CARD"), ("device", "web"), ("channel", "site"), ("referrer", ""),
   ("is_return", "0"), ("return_date", ""), ("status", "OK"), ("notes", "")]

/-- C8: the cleaning mapper rejects a row with `too_few_columns` exactly when
it has fewer fields than the active schema; extra trailing fields are silently
truncated (parsing the row equals parsing its schema-length prefix); and the
concrete 21-column row under the v1 schema yields a valid record from the
first 19 columns. -/
theorem column_count_policy (schema row : List String) :
    (mapperRow schema row = Emission.reject RejectError.too_few_columns ↔
      row.length < schema.length) ∧
    (schema.length < row.length →
      mapperRow schema row = mapperRow schema (row.take schema.length)) ∧
    mapperRow schema_v1 row21 = Emission.valid "T1" rec21v1 := by
  refine ⟨⟨fun h => ?_, fun h => ?_⟩, fun h => ?_, by decide⟩
  · by_contra hlt
    unfold mapperRow at h
    rw [if_neg hlt] at h
    dsimp only at h
    repeat' split at h
    all_goals simp_all
  · unfold mapperRow
    rw [if_pos h]
  · have h1 : ¬ row.length < schema.length := by omega
    have h2 : ¬ (row.take schema.length).length < schema.length := by
      simp only [List.length_take]
      omega
    unfold mapperRow
    rw [if_neg h1, if_neg h2, List.take_take, min_self]

end DataCleaningJob

namespace DataCleaningJob

/-- C8 witness: the concrete 21-column row is parsed under v1 exactly as its
19-column prefix, the extras being silently dropped. -/
theorem column_count_policy_witness :
    mapperRow schema_v1 row21 = mapperRow schema_v1 (row21.take schema_v1.length) :=
  (column_count_policy schema_v1 row21).2.1 (by decide)

/-- C3: on a row that reaches the numeric-validation step (enough columns,
non-empty transaction id, valid date), if both `unit_price` and `qty` parse
then the row passes the price check exactly when the price lies in
`[0, 1000000]` and is rejected with `invalid_price` otherwise; if either field
fails to parse, the row is rejected with `non_numeric_values`, which takes
precedence over both range checks. -/
theorem numeric_validation_policy (schema row : List String)
    (hlen : ¬ row.length < schema.length)
    (htid : ¬ pyStrip ((row.take schema.length).getD 0 "") = "")
    (hdate : is_valid_date (pyStrip ((row.take schema.length).getD 1 "")) = true) :
    (∀ x y, pyFloat (pyStrip ((row.take schema.length).getD 8 "")) = some x →
        pyInt (pyStrip ((row.take schema.length).getD 9 "")) = some y →
        ((0 ≤ x ∧ x ≤ 1000000) ↔
          mapperRow schema row ≠ Emission.reject RejectError.invalid_price) ∧
        (¬ (0 ≤ x ∧ x ≤ 1000000) →
          mapperRow schema row = Emission.reject RejectError.invalid_price)) ∧
    ((pyFloat (pyStrip ((row.take schema.length).getD 8 "")) = none ∨
        pyInt (pyStrip ((row.take schema.length).getD 9 "")) = none) →
      mapperRow schema row = Emission.reject RejectError.non_numeric_values) := by
  unfold mapperRow
  rw [if_neg hlen]
  dsimp only
  rw [if_neg htid, if_neg (not_not_intro hdate)]
  constructor
  · intro x y hx hy
    rw [hx, hy]
    dsimp only
    by_cases hr : x < 0 ∨ 1000000 < x
    · rw [if_pos hr]
      constructor
      · constructor
        · intro hin
          rcases hr with hr | hr <;> [linarith [hin.1]; linarith [hin.2]]
        · intro hne
          exact absurd rfl hne
      · intro _
        rfl
    · rw [if_neg hr]
      push_neg at hr
      have hin : 0 ≤ x ∧ x ≤ 1000000 := ⟨hr.1, hr.2⟩
      constructor
      · constructor
        · intro _
          split <;> simp
        · intro _
          exact hin
      · intro hcon
        exact absurd hin hcon
  · intro hnone
    rcases hpx : pyFloat (pyStrip ((row.take schema.length).getD 8 "")) with _ | x <;>
      rcases hqy : pyInt (pyStrip ((row.take schema.length).getD 9 "")) with _ | y <;>
        (simp only [hpx, hqy]; try rfl)
    rcases hnone with hn | hn
    · rw [hpx] at hn
      exact absurd hn (by simp)
    · rw [hqy] at hn
      exact absurd hn (by simp)

/-- A 19-column row with a negative price, reaching the numeric step. -/
def rowNegPrice : List String :=
  ["T9", "2024-03-05 10:00:00", "U", "FR", "P", "p1", "c", "s", "-1.5", "2",
   "", "", "", "", "", "", "", "", ""]

/-- C3 witness: the concrete row with `unit_price = -1.5` and `qty = 2` is
rejected with `invalid_price`. -/
theorem numeric_validation_policy_witness :
    mapperRow schema_v1 rowNegPrice = Emission.reject RejectError.invalid_price :=
  (((numeric_validation_policy schema_v1 rowNegPrice (by decide) (by decide)
      (by decide)).1 (-3 / 2) 2 (by decide) (by decide)).2 (by
        intro hc
        have := hc.1
        norm_num at this))

end DataCleaningJob

/-- A cleaned record as deserialized from the JSON payload of a `CLEAN` line.
Stage-one output stores every schema field as a string; a field absent from
the JSON object is modelled as the empty string, which the coercion helpers
of the second-stage jobs treat exactly like the code's defaults. -/
structure CleanRecord where
  country : String
  ts : String
  product_id : String
  unit_price : String
  qty : String
  is_return : String
  deriving DecidableEq, Repr

/-- Input line of the second-stage mappers: either the line has no tab
separator, or it splits into the text before the first tab (the key) and a
JSON payload whose deserialization outcome is `payload` (`none` models a
`json.loads` failure). -/
inductive MRLine
  | noTab
  | withTab (rawKey : String) (payload : Option CleanRecord)
  deriving DecidableEq, Repr

namespace SalesAnalysisJob

/-- Modelled from `SalesAnalysisJob._to_float`: remove commas, strip, parse
as float, and return 0.0 on any failure. -/
def to_float (x : String) : ℚ :=
  match pyFloat (pyStrip ⟨x.toList.filter (fun c => c ≠ ',')⟩) with
  | some v => v
  | none => 0

/-- Modelled from `SalesAnalysisJob._to_int`: strip, parse as int, 0 on
failure. -/
def to_int (x : String) : ℤ :=
  match pyInt (pyStrip x) with
  | some v => v
  | none => 0

/-- Modelled from `SalesAnalysisJob._to_bool_int`: 1 when the lower-cased
stripped text is one of `1`, `true`, `t`, `yes`, `y`; else 0. -/
def to_bool_int (x : String) : ℤ :=
  let s := pyLower (pyStrip x)
  if s = "1" ∨ s = "true" ∨ s = "t" ∨ s = "yes" ∨ s = "y" then 1 else 0

/-- Calendar validity of a ten-character `YYYY-MM-DD` prefix, as required by
`datetime.strptime(ts[:10], %Y-%m-%d)`.  `strptime` tolerance for unpadded
fields is not modelled; no claim depends on it. -/
def validYMD (s : String) : Bool :=
  match s.toList with
  | [y1, y2, y3, y4, '-', m1, m2, '-', d1, d2] =>
    [y1, y2, y3, y4, m1, m2, d1, d2].all Char.isDigit &&
      dateComponentsOk (digitsVal [y1, y2, y3, y4]) (digitsVal [m1, m2])
        (digitsVal [d1, d2]) 0 0 0
  | _ => false

/-- Modelled from the month computation of `mapper_parse_sales`: parse the
first ten characters as a date and reformat as `YYYY-MM` (the first seven
characters); `none` models the exception path that drops the record. -/
def parseYearMonth (ts : String) : Option String :=
  if validYMD (pyTake ts 10) then some (pyTake ts 7) else none

/-- Per-(country, month) value emitted by the sales mapper. -/
structure CMVal where
  amount : ℚ
  transactions : ℤ
  qty : ℤ
  deriving DecidableEq, Repr

/-- Per-record value emitted by the sales mapper under `RETURN_STATS`. -/
structure StatVal where
  is_return : ℤ
  qty : ℤ
  amount : ℚ
  deriving DecidableEq, Repr

/-- One emission of the sales mapper. -/
inductive SalesEmission
  | byCountryMonth (country yearMonth : String) (v : CMVal)
  | returnStats (v : StatVal)
  deriving DecidableEq, Repr

/-- Modelled from `SalesAnalysisJob.mapper_parse_sales`: lines without a tab,
with a key other than `CLEAN`, with an undeserializable payload, or with an
unusable month yield no emission; otherwise one `(country, month)` value and
one `RETURN_STATS` value are emitted, the latter with absolute quantity and
amount.  The surrounding `try/except` makes the mapper total. -/
def mapper_parse_sales (line : MRLine) : List SalesEmission :=
  match line with
  | .noTab => []
  | .withTab rawKey payload =>
    if stripQuotes rawKey ≠ "CLEAN" then []
    else
      match payload with
      | none => []
      | some record =>
        let country0 := pyStrip (pyUpper record.country)
        let country := if country0 = "" then "UNKNOWN" else country0
        match parseYearMonth record.ts with
        | none => []
        | some year_month =>
          let unit_price := to_float record.unit_price
          let qty := to_int record.qty
          let is_return := to_bool_int record.is_return
          let amount := unit_price * (qty : ℚ)
          [.byCountryMonth country year_month ⟨amount, 1, qty⟩,
           .returnStats ⟨is_return, |qty|, |amount|⟩]

/-- Accumulator of the `RETURN_STATS` reduction loop. -/
structure StatAcc where
  total_qty : ℤ
  return_qty : ℤ
  total_amount : ℚ
  return_amount : ℚ
  deriving DecidableEq, Repr

/-- One iteration of the `RETURN_STATS` summing loop of
`reducer_aggregate_sales`: every value adds to the totals, and values flagged
`is_return == 1` additionally add to the returned totals. -/
def statStep (a : StatAcc) (v : StatVal) : StatAcc :=
  { total_qty := a.total_qty + v.qty
    return_qty := a.return_qty + (if v.is_return = 1 then v.qty else 0)
    total_amount := a.total_amount + v.amount
    return_amount := a.return_amount + (if v.is_return = 1 then v.amount else 0) }

/-- Python `round(q, 2)` over rationals: scale by 100, round to the nearest
integer, scale back.  Python rounds exact halves to even; the claims only
evaluate rounding away from halves, where the two rules agree. -/
def round2 (q : ℚ) : ℚ := (round (q * 100) : ℤ) / 100

/-- The `RETURN_RATE` row emitted by the `RETURN_STATS` reduction. -/
structure ReturnRateRow where
  total_quantity : ℤ
  returned_quantity : ℤ
  return_rate_by_qty : ℚ
  total_amount : ℚ
  returned_amount : ℚ
  return_rate_by_amount : ℚ
  deriving DecidableEq, Repr

/-- Modelled from the `RETURN_STATS` arm of
`SalesAnalysisJob.reducer_aggregate_sales`: sum the delivered values, divide
only when the corresponding total is strictly positive, and round rates and
amounts to two decimals. -/
def reducer_return_stats (values : List StatVal) : ReturnRateRow :=
  let a := values.foldl statStep ⟨0, 0, 0, 0⟩
  let rateQ : ℚ := if 0 < a.total_qty then (a.return_qty : ℚ) / (a.total_qty : ℚ) * 100 else 0
  let rateA : ℚ := if 0 < a.total_amount then a.return_amount / a.total_amount * 100 else 0
  { total_quantity := a.total_qty
    returned_quantity := a.return_qty
    return_rate_by_qty := round2 rateQ
    total_amount := round2 a.total_amount
    returned_amount := round2 a.return_amount
    return_rate_by_amount := round2 rateA }

end SalesAnalysisJob

namespace SalesAnalysisJob

/-- The summing loop of the `RETURN_STATS` reduction computes the four sums of
the delivered values. -/
theorem statStep_foldl (vs : List StatVal) (a : StatAcc) :
    (vs.foldl statStep a).total_qty = a.total_qty + (vs.map StatVal.qty).sum ∧
    (vs.foldl statStep a).return_qty =
      a.return_qty + (vs.map fun v => if v.is_return = 1 then v.qty else 0).sum ∧
    (vs.foldl statStep a).total_amount = a.total_amount + (vs.map StatVal.amount).sum ∧
    (vs.foldl statStep a).return_amount =
      a.return_amount + (vs.map fun v => if v.is_return = 1 then v.amount else 0).sum := by
  induction vs generalizing a with
  | nil => simp
  | cons v vs ih =>
    simp only [List.foldl_cons, List.map_cons, List.sum_cons]
    obtain ⟨h1, h2, h3, h4⟩ := ih (statStep a v)
    refine ⟨?_, ?_, ?_, ?_⟩ <;>
      simp only [h1, h2, h3, h4] <;> simp only [statStep] <;> ring

/-- C4: the `RETURN_STATS` reduction returns a zero quantity rate when the
summed total quantity is zero and a zero amount rate when the summed total
amount is zero (no division by zero); and on a dataset with total quantity
100 of which 20 were returned, the quantity rate is exactly 20. -/
theorem return_rate_zero_guard :
    (∀ vs : List StatVal, (vs.map StatVal.qty).sum = 0 →
        (reducer_return_stats vs).return_rate_by_qty = 0) ∧
    (∀ vs : List StatVal, (vs.map StatVal.amount).sum = 0 →
        (reducer_return_stats vs).return_rate_by_amount = 0) ∧
    (reducer_return_stats [⟨1, 20, 200⟩, ⟨0, 80, 800⟩]).return_rate_by_qty = 20 := by
  refine ⟨fun vs h => ?_, fun vs h => ?_, by decide⟩
  · have ht : (vs.foldl statStep ⟨0, 0, 0, 0⟩).total_qty = 0 := by
      have := (statStep_foldl vs ⟨0, 0, 0, 0⟩).1
      simpa [h] using this
    unfold reducer_return_stats
    dsimp only
    rw [ht]
    norm_num [round2]
  · have ht : (vs.foldl statStep ⟨0, 0, 0, 0⟩).total_amount = 0 := by
      have := (statStep_foldl vs ⟨0, 0, 0, 0⟩).2.2.1
      simpa [h] using this
    unfold reducer_return_stats
    dsimp only
    rw [ht]
    norm_num [round2]

end SalesAnalysisJob

namespace SalesAnalysisJob

/-- C4 witness: an empty collection has total quantity zero and the reduction
yields a zero rate rather than dividing by zero. -/
theorem return_rate_zero_guard_witness :
    (reducer_return_stats ([] : List StatVal)).return_rate_by_qty = 0 :=
  return_rate_zero_guard.1 [] rfl

/-- Every `RETURN_STATS` value produced by the sales mapper carries a
non-negative quantity and amount (they are absolute values). -/
theorem mapper_stat_shape {v : StatVal} {inp : MRLine}
    (h : SalesEmission.returnStats v ∈ mapper_parse_sales inp) :
    0 ≤ v.qty ∧ 0 ≤ v.amount := by
  unfold mapper_parse_sales at h
  repeat' split at h
  all_goals simp_all

/-- Rounding to two decimals keeps a rate inside `[0, 100]`. -/
theorem round2_bounds {q : ℚ} (h0 : 0 ≤ q) (h100 : q ≤ 100) :
    0 ≤ round2 q ∧ round2 q ≤ 100 := by
  unfold round2
  have hlow : (0 : ℤ) ≤ round (q * 100) := by
    rw [round_eq]
    refine Int.le_floor.2 ?_
    push_cast
    linarith
  have hhigh : round (q * 100) ≤ 10000 := by
    rw [round_eq]
    have hlt : ⌊q * 100 + 1 / 2⌋ < 10001 := by
      refine Int.floor_lt.2 ?_
      push_cast
      linarith
    omega
  constructor
  · refine div_nonneg ?_ (by norm_num)
    exact_mod_cast hlow
  · rw [div_le_iff₀ (by norm_num : (0 : ℚ) < 100)]
    calc ((round (q * 100) : ℤ) : ℚ) ≤ ((10000 : ℤ) : ℚ) := by exact_mod_cast hhigh
      _ = 100 * 100 := by norm_num

/-- C9: when every value delivered to the `RETURN_STATS` reduction was
produced by the sales mapper, both return rates lie in `[0, 100]`. -/
theorem return_rates_bounded (vs : List StatVal)
    (hsrc : ∀ v ∈ vs, ∃ inp, SalesEmission.returnStats v ∈ mapper_parse_sales inp) :
    0 ≤ (reducer_return_stats vs).return_rate_by_qty ∧
      (reducer_return_stats vs).return_rate_by_qty ≤ 100 ∧
      0 ≤ (reducer_return_stats vs).return_rate_by_amount ∧
      (reducer_return_stats vs).return_rate_by_amount ≤ 100 := by
  have hpos : ∀ v ∈ vs, 0 ≤ v.qty ∧ 0 ≤ v.amount := fun v hv => by
    obtain ⟨inp, hinp⟩ := hsrc v hv
    exact mapper_stat_shape hinp
  obtain ⟨h1, h2, h3, h4⟩ := statStep_foldl vs ⟨0, 0, 0, 0⟩
  have hq0 : (0 : ℤ) ≤ (vs.map fun v => if v.is_return = 1 then v.qty else 0).sum := by
    refine List.sum_nonneg ?_
    intro x hx
    obtain ⟨v, hv, hvx⟩ := List.mem_map.1 hx
    subst hvx
    split
    · exact (hpos v hv).1
    · exact le_refl 0
  have hqle : (vs.map fun v => if v.is_return = 1 then v.qty else 0).sum ≤
      (vs.map StatVal.qty).sum := by
    refine List.sum_le_sum ?_
    intro v hv
    split
    · exact le_refl _
    · exact (hpos v hv).1
  have ha0 : (0 : ℚ) ≤ (vs.map fun v => if v.is_return = 1 then v.amount else 0).sum := by
    refine List.sum_nonneg ?_
    intro x hx
    obtain ⟨v, hv, hvx⟩ := List.mem_map.1 hx
    subst hvx
    split
    · exact (hpos v hv).2
    · exact le_refl 0
  have hale : (vs.map fun v => if v.is_return = 1 then v.amount else 0).sum ≤
      (vs.map StatVal.amount).sum := by
    refine List.sum_le_sum ?_
    intro v hv
    split
    · exact le_refl _
    · exact (hpos v hv).2
  unfold reducer_return_stats
  dsimp only
  rw [h1, h2, h3, h4]
  simp only [zero_add]
  constructor
  · refine (round2_bounds ?_ ?_).1 <;> [skip; skip]
    · split
      · next hpos2 =>
        have htq : (0 : ℚ) < ((vs.map StatVal.qty).sum : ℤ) := by exact_mod_cast hpos2
        refine mul_nonneg (div_nonneg ?_ htq.le) (by norm_num)
        exact_mod_cast hq0
      · exact le_refl 0
    · split
      · next hpos2 =>
        have htq : (0 : ℚ) < ((vs.map StatVal.qty).sum : ℤ) := by exact_mod_cast hpos2
        have hr : (((vs.map fun v => if v.is_return = 1 then v.qty else 0).sum : ℤ) : ℚ) /
            (((vs.map StatVal.qty).sum : ℤ) : ℚ) ≤ 1 :=
          (div_le_one htq).2 (by exact_mod_cast hqle)
        calc (((vs.map fun v => if v.is_return = 1 then v.qty else 0).sum : ℤ) : ℚ) /
              (((vs.map StatVal.qty).sum : ℤ) : ℚ) * 100 ≤ 1 * 100 :=
            mul_le_mul_of_nonneg_right hr (by norm_num)
          _ = 100 := one_mul 100
      · norm_num
  refine ⟨?_, ?_, ?_⟩
  · refine (round2_bounds ?_ ?_).2 <;> [skip; skip]
    · split
      · next hpos2 =>
        have htq : (0 : ℚ) < ((vs.map StatVal.qty).sum : ℤ) := by exact_mod_cast hpos2
        refine mul_nonneg (div_nonneg ?_ htq.le) (by norm_num)
        exact_mod_cast hq0
      · exact le_refl 0
    · split
      · next hpos2 =>
        have htq : (0 : ℚ) < ((vs.map StatVal.qty).sum : ℤ) := by exact_mod_cast hpos2
        have hr : (((vs.map fun v => if v.is_return = 1 then v.qty else 0).sum : ℤ) : ℚ) /
            (((vs.map StatVal.qty).sum : ℤ) : ℚ) ≤ 1 :=
          (div_le_one htq).2 (by exact_mod_cast hqle)
        calc (((vs.map fun v => if v.is_return = 1 then v.qty else 0).sum : ℤ) : ℚ) /
              (((vs.map StatVal.qty).sum : ℤ) : ℚ) * 100 ≤ 1 * 100 :=
            mul_le_mul_of_nonneg_right hr (by norm_num)
          _ = 100 := one_mul 100
      · norm_num
  · refine (round2_bounds ?_ ?_).1 <;> [skip; skip]
    · split
      · next hpos2 =>
        refine mul_nonneg (div_nonneg ha0 (le_of_lt hpos2)) (by norm_num)
      · exact le_refl 0
    · split
      · next hpos2 =>
        have hr : (vs.map fun v => if v.is_return = 1 then v.amount else 0).sum /
            (vs.map StatVal.amount).sum ≤ 1 := (div_le_one hpos2).2 hale
        calc (vs.map fun v => if v.is_return = 1 then v.amount else 0).sum /
              (vs.map StatVal.amount).sum * 100 ≤ 1 * 100 :=
            mul_le_mul_of_nonneg_right hr (by norm_num)
          _ = 100 := one_mul 100
      · norm_num
  · refine (round2_bounds ?_ ?_).2 <;> [skip; skip]
    · split
      · next hpos2 =>
        refine mul_nonneg (div_nonneg ha0 (le_of_lt hpos2)) (by norm_num)
      · exact le_refl 0
    · split
      · next hpos2 =>
        have hr : (vs.map fun v => if v.is_return = 1 then v.amount else 0).sum /
            (vs.map StatVal.amount).sum ≤ 1 := (div_le_one hpos2).2 hale
        calc (vs.map fun v => if v.is_return = 1 then v.amount else 0).sum /
              (vs.map StatVal.amount).sum * 100 ≤ 1 * 100 :=
            mul_le_mul_of_nonneg_right hr (by norm_num)
          _ = 100 := one_mul 100
      · norm_num

end SalesAnalysisJob

namespace SalesAnalysisJob

/-- C9 witness: a single mapper-produced return value (a return of 2 units
worth 10) gives rates inside `[0, 100]`. -/
theorem return_rates_bounded_witness :
    0 ≤ (reducer_return_stats [⟨1, 2, 10⟩]).return_rate_by_qty ∧
      (reducer_return_stats [⟨1, 2, 10⟩]).return_rate_by_qty ≤ 100 ∧
      0 ≤ (reducer_return_stats [⟨1, 2, 10⟩]).return_rate_by_amount ∧
      (reducer_return_stats [⟨1, 2, 10⟩]).return_rate_by_amount ≤ 100 := by
  refine return_rates_bounded [⟨1, 2, 10⟩] ?_
  intro v hv
  simp only [List.mem_singleton] at hv
  subst hv
  exact ⟨MRLine.withTab "CLEAN" (some ⟨"FR", "2024-03-05 10:00:00", "P1", "5", "-2", "1"⟩),
    by decide⟩

end SalesAnalysisJob

namespace TopProductsJob

/-- A catalog entry: name, category, subcategory. -/
structure CatalogEntry where
  name : String
  category : String
  subcategory : String
  deriving DecidableEq, Repr

/-- The in-memory product catalog, a mapping with Python-dict semantics
(insertion order, assignment overwrites in place), modelled as an
association list. -/
abbrev Catalog := List (String × CatalogEntry)

/-- Python dict assignment `d[k] = v`: overwrite in place or append. -/
def dictInsert (c : Catalog) (k : String) (v : CatalogEntry) : Catalog :=
  if (c.lookup k).isSome then
    c.map fun p => if p.1 = k then (k, v) else p
  else c ++ [(k, v)]

/-- One loop iteration of the catalog loader: skip empty rows and `#` rows,
tolerate short rows, default missing name/category/subcategory, skip rows
with an empty product id. -/
def processRow (cat : Catalog) (row : List String) : Catalog :=
  match row with
  | [] => cat
  | c0 :: _ =>
    if pyStartsWith c0 "#" then cat
    else
      let product_id := pyStrip (row.getD 0 "")
      let product_name := pyStrip (row.getD 1 "")
      let category := pyStrip (row.getD 2 "")
      let subcategory := pyStrip (row.getD 3 "")
      if product_id = "" then cat
      else
        dictInsert cat product_id
          ⟨if product_name = "" then "Unknown Product " ++ product_id else product_name,
           if category = "" then "Unknown" else category,
           if subcategory = "" then "Unknown" else subcategory⟩

/-- One event of the catalog's row iteration: a parsed csv row, or a
read/parse exception raised at that point (for example a line containing a
NUL byte, which `csv.reader` raises on mid-file). -/
inductive RowEvent
  | ok (row : List String)
  | err
  deriving DecidableEq, Repr

/-- Reading `catalogue_produits.csv` is modelled as a source that either
fails to open or yields a sequence of row events. -/
inductive CatalogSource
  | openFail
  | rows (events : List RowEvent)
  deriving DecidableEq, Repr

/-- The loader loop over row events: an exception aborts the loop; the
`try/except` of `mapper_init` keeps whatever was inserted before it. -/
def loadRows : List RowEvent → Catalog → Catalog
  | [], cat => cat
  | .err :: _, cat => cat
  | .ok r :: rest, cat => loadRows rest (processRow cat r)

/-- Modelled from `TopProductsJob.mapper_init`: start from an empty dict; on
open failure the except-arm leaves it empty; otherwise `next(reader, None)`
consumes the header (an exception there is caught, leaving the dict empty)
and the loop processes the remaining row events. -/
def mapper_init : CatalogSource → Catalog
  | .openFail => []
  | .rows [] => []
  | .rows (.err :: _) => []
  | .rows (.ok _ :: rest) => loadRows rest []

/-- The rows delivered before the first read error of the event sequence. -/
def rowsBeforeError : List RowEvent → List (List String)
  | [] => []
  | .err :: _ => []
  | .ok r :: rest => r :: rowsBeforeError rest

/-- Per-product value emitted by the top-products mapper. -/
structure ProdVal where
  amount : ℚ
  qty : ℤ
  transactions : ℤ
  product_name : String
  category : String
  subcategory : String
  deriving DecidableEq, Repr

/-- Modelled from `TopProductsJob.mapper_aggregate_by_product`: only `CLEAN`
tab-lines with a deserializable payload and a non-empty product id emit; the
catalog lookup falls back to a synthesized Unknown entry.  The numeric
helpers of this job are identical to those of `SalesAnalysisJob`. -/
def mapper_aggregate_by_product (catalog : Catalog) (line : MRLine) :
    List (String × ProdVal) :=
  match line with
  | .noTab => []
  | .withTab rawKey payload =>
    if stripQuotes rawKey ≠ "CLEAN" then []
    else
      match payload with
      | none => []
      | some record =>
        let product_id := pyStrip record.product_id
        if product_id = "" then []
        else
          let unit_price := SalesAnalysisJob.to_float record.unit_price
          let qty := SalesAnalysisJob.to_int record.qty
          let amount := unit_price * (qty : ℚ)
          let info := (catalog.lookup product_id).getD
            ⟨"Unknown Product " ++ product_id, "Unknown", "Unknown"⟩
          [(product_id, ⟨amount, qty, 1, info.name, info.category, info.subcategory⟩)]

/-- A per-product total as emitted under the `TOP` key by
`reducer_sum_by_product`. -/
structure Product where
  product_id : String
  product_name : String
  category : String
  subcategory : String
  net_revenue : ℚ
  quantity_sold : ℤ
  transactions : ℤ
  deriving DecidableEq, Repr

/-- Descending-revenue comparison used by the final sort: `a` may be placed
before `b` when `b` does not exceed it. -/
def revGE (a b : Product) : Prop := b.net_revenue ≤ a.net_revenue

instance : DecidableRel revGE := fun a b =>
  inferInstanceAs (Decidable (b.net_revenue ≤ a.net_revenue))

instance : IsTotal Product revGE := ⟨fun a b => le_total b.net_revenue a.net_revenue⟩

instance : IsTrans Product revGE := ⟨fun _ _ _ h1 h2 => le_trans h2 h1⟩

/-- Python `products.sort(key=..., reverse=True)` is a stable descending
sort; it is modelled as a stable insertion sort for the relation `revGE`,
which computes the same list (the theorems below establish sortedness,
stability and the permutation property). -/
def pySortByRevenueDesc (l : List Product) : List Product := l.insertionSort revGE

/-- The `RANK_nn` tag (`f-string RANK_{i:02d}`). -/
def rankLabel (i : ℕ) : String :=
  if i < 10 then "RANK_0" ++ toString i else "RANK_" ++ toString i

/-- A rank row: the rank together with the product fields copied from the
ranked per-product total. -/
structure RankRow where
  rank : ℕ
  product : Product
  deriving DecidableEq, Repr

/-- Modelled from `TopProductsJob.reducer_top_10`: collect every per-product
total, sort descending by net revenue, keep the first ten, and emit them as
`RANK_01`.. with one-based rank fields. -/
def reducer_top_10 (values : List Product) : List (String × RankRow) :=
  ((pySortByRevenueDesc values).take 10).enum.map
    fun p => (rankLabel (p.1 + 1), ⟨p.1 + 1, p.2⟩)

end TopProductsJob

namespace TopProductsJob

/-- The loader loop builds the catalog from exactly the rows delivered before
the first read error. -/
theorem loadRows_eq_foldl (evs : List RowEvent) (cat : Catalog) :
    loadRows evs cat = (rowsBeforeError evs).foldl processRow cat := by
  induction evs generalizing cat with
  | nil => rfl
  | cons e rest ih =>
    cases e with
    | ok r => simp [loadRows, rowsBeforeError, ih]
    | err => rfl

/-- C5 (amended): on failure to open the source, or on a read error before
any data row is delivered, the catalog is the empty mapping; in general a
load error leaves exactly the entries built from the data rows delivered
before the error (after the header), so a mid-stream failure can leave a
non-empty partial mapping; the pipeline is never aborted. -/
theorem catalog_load_graceful :
    mapper_init CatalogSource.openFail = [] ∧
    (∀ evs, mapper_init (CatalogSource.rows evs) =
      ((rowsBeforeError evs).drop 1).foldl processRow []) ∧
    (∀ evs, (rowsBeforeError evs).length ≤ 1 →
      mapper_init (CatalogSource.rows evs) = []) := by
  refine ⟨rfl, fun evs => ?_, fun evs h => ?_⟩
  · cases evs with
    | nil => rfl
    | cons e rest =>
      cases e with
      | ok r => simp [mapper_init, rowsBeforeError, loadRows_eq_foldl]
      | err => rfl
  · cases evs with
    | nil => rfl
    | cons e rest =>
      cases e with
      | ok r =>
        have hnil : rowsBeforeError rest = [] := by
          simp only [rowsBeforeError, List.length_cons] at h
          exact List.eq_nil_of_length_eq_zero (by omega)
        simp [mapper_init, loadRows_eq_foldl, hnil]
      | err => rfl

/-- Event sequence of a catalog file whose third line raises a read error
after a header and one good data row. -/
def badCatalogEvents : List RowEvent :=
  [.ok ["pid", "name", "category", "subcategory"], .ok ["P1", "Widget", "Toys", "Cars"], .err]

/-- C5 counterexample: a catalog source that fails mid-stream (a read error
after one good data row) leaves a partial, non-empty mapping, not the empty
mapping the claim requires on any load error. -/
theorem catalog_midstream_error_counterexample :
    RowEvent.err ∈ badCatalogEvents ∧
    mapper_init (CatalogSource.rows badCatalogEvents) =
      [("P1", ⟨"Widget", "Toys", "Cars"⟩)] ∧
    mapper_init (CatalogSource.rows badCatalogEvents) ≠ [] := by
  refine ⟨by decide, by decide, by decide⟩

/-- C5 witness: a source whose very first read raises leaves the empty
mapping. -/
theorem catalog_load_graceful_witness :
    mapper_init (CatalogSource.rows [RowEvent.err]) = [] :=
  catalog_load_graceful.2.2 [RowEvent.err] (by decide)

/-- C7: a `CLEAN` record with a non-empty product id absent from the catalog
is never dropped: the mapper emits exactly one pair under that product id,
carrying the synthesized Unknown entry together with the record's signed
amount, quantity and a transaction count of one. -/
theorem unknown_product_left_join (catalog : Catalog) (rawKey : String)
    (record : CleanRecord) (hkey : stripQuotes rawKey = "CLEAN")
    (hpid : ¬ pyStrip record.product_id = "")
    (hmiss : catalog.lookup (pyStrip record.product_id) = none) :
    mapper_aggregate_by_product catalog (MRLine.withTab rawKey (some record)) =
      [(pyStrip record.product_id,
        ⟨SalesAnalysisJob.to_float record.unit_price *
            (SalesAnalysisJob.to_int record.qty : ℚ),
          SalesAnalysisJob.to_int record.qty, 1,
          "Unknown Product " ++ pyStrip record.product_id, "Unknown", "Unknown"⟩)] := by
  unfold mapper_aggregate_by_product
  dsimp only
  rw [if_neg (not_not_intro hkey)]
  rw [if_neg hpid, hmiss]
  rfl

/-- C7 witness: a concrete sale of product `P9` (absent from an empty
catalog) survives the join with the synthesized Unknown entry. -/
theorem unknown_product_left_join_witness :
    mapper_aggregate_by_product [] (MRLine.withTab "CLEAN"
        (some ⟨"FR", "2024-03-05 10:00:00", "P9", "5", "-2", "0"⟩)) =
      [("P9", ⟨-10, -2, 1, "Unknown Product P9", "Unknown", "Unknown"⟩)] :=
  (unknown_product_left_join [] "CLEAN" ⟨"FR", "2024-03-05 10:00:00", "P9", "5", "-2", "0"⟩
    (by decide) (by decide) (by decide)).trans (by decide)

end TopProductsJob

namespace TopProductsJob

/-- Inserting an element whose key equals `q` places it in front of every
later element of equal key: the equal-key sublist gains the new element at
its head. -/
theorem filter_orderedInsert_pos (q : ℚ) (a : Product) (ha : a.net_revenue = q)
    (l : List Product) :
    (List.orderedInsert revGE a l).filter (fun p => p.net_revenue = q) =
      a :: l.filter (fun p => p.net_revenue = q) := by
  induction l with
  | nil => simp [List.orderedInsert, ha]
  | cons b l ih =>
    by_cases hab : revGE a b
    · simp [List.orderedInsert, hab, List.filter_cons, ha]
    · have hb : ¬ b.net_revenue = q := by
        intro hbq
        exact hab (by unfold revGE; rw [hbq, ← ha])
      simp [List.orderedInsert, hab, List.filter_cons, hb, ih]

/-- Inserting an element whose key differs from `q` leaves the equal-key
sublist unchanged. -/
theorem filter_orderedInsert_neg (q : ℚ) (a : Product) (ha : ¬ a.net_revenue = q)
    (l : List Product) :
    (List.orderedInsert revGE a l).filter (fun p => p.net_revenue = q) =
      l.filter (fun p => p.net_revenue = q) := by
  induction l with
  | nil => simp [List.orderedInsert, ha]
  | cons b l ih =>
    by_cases hab : revGE a b
    · simp [List.orderedInsert, hab, List.filter_cons, ha]
    · simp [List.orderedInsert, hab, List.filter_cons, ih]

/-- Stability of the modelled sort: for every revenue value, the sublist of
products having that revenue is unchanged by the sort. -/
theorem filter_pySort_stable (q : ℚ) (l : List Product) :
    (pySortByRevenueDesc l).filter (fun p => p.net_revenue = q) =
      l.filter (fun p => p.net_revenue = q) := by
  induction l with
  | nil => rfl
  | cons a l ih =>
    unfold pySortByRevenueDesc at ih ⊢
    rw [List.insertionSort]
    by_cases ha : a.net_revenue = q
    · rw [filter_orderedInsert_pos q a ha, ih]
      simp [List.filter_cons, ha]
    · rw [filter_orderedInsert_neg q a ha, ih]
      simp [List.filter_cons, ha]

/-- C2: the final top-10 reduction emits exactly the first ten entries of the
per-product totals sorted descending by net revenue: at most ten rows, with
labels `RANK_01`.. and one-based rank fields matching positions, the ranked
products being the prefix of a sorted permutation of the input, and the sort
stable (equal-revenue products keep their delivered order, so both members of
a revenue tie within the top 10 appear, in delivery order). -/
theorem top10_sorted_stable_truncated (values : List Product) :
    (reducer_top_10 values).length = min 10 values.length ∧
    List.Perm (pySortByRevenueDesc values) values ∧
    (pySortByRevenueDesc values).Pairwise
      (fun a b => b.net_revenue ≤ a.net_revenue) ∧
    (∀ q : ℚ, (pySortByRevenueDesc values).filter (fun p => p.net_revenue = q) =
      values.filter (fun p => p.net_revenue = q)) ∧
    (reducer_top_10 values).map Prod.fst =
      (List.range (min 10 values.length)).map (fun i => rankLabel (i + 1)) ∧
    (reducer_top_10 values).map (fun kv => kv.2.rank) =
      (List.range (min 10 values.length)).map (fun i => i + 1) ∧
    (reducer_top_10 values).map (fun kv => kv.2.product) =
      (pySortByRevenueDesc values).take 10 := by
  have hlen : ((pySortByRevenueDesc values).take 10).length = min 10 values.length := by
    rw [List.length_take]
    unfold pySortByRevenueDesc
    rw [List.length_insertionSort]
  refine ⟨?_, List.perm_insertionSort revGE values,
    List.sorted_insertionSort revGE values,
    fun q => filter_pySort_stable q values, ?_, ?_, ?_⟩
  · unfold reducer_top_10
    rw [List.length_map, List.enum_length, hlen]
  · unfold reducer_top_10
    rw [List.map_map]
    have h1 := congrArg (List.map fun i => rankLabel (i + 1))
      (List.enum_map_fst ((pySortByRevenueDesc values).take 10))
    rw [List.map_map, hlen] at h1
    exact h1
  · unfold reducer_top_10
    rw [List.map_map]
    have h1 := congrArg (List.map fun i => i + 1)
      (List.enum_map_fst ((pySortByRevenueDesc values).take 10))
    rw [List.map_map, hlen] at h1
    exact h1
  · unfold reducer_top_10
    rw [List.map_map]
    exact List.enum_map_snd ((pySortByRevenueDesc values).take 10)

end TopProductsJob

/-- C10: the second-stage mappers are total functions of their input line and
emit nothing on every failure path: a line without a tab separator, a payload
that fails to deserialize, a key tag other than `CLEAN`, and (for the sales
mapper) a timestamp whose month cannot be parsed, all yield no emissions. -/
theorem second_stage_mappers_silent :
    SalesAnalysisJob.mapper_parse_sales MRLine.noTab = [] ∧
    (∀ k, SalesAnalysisJob.mapper_parse_sales (MRLine.withTab k none) = []) ∧
    (∀ k pl, stripQuotes k ≠ "CLEAN" →
      SalesAnalysisJob.mapper_parse_sales (MRLine.withTab k pl) = []) ∧
    (∀ k rec, SalesAnalysisJob.parseYearMonth rec.ts = none →
      SalesAnalysisJob.mapper_parse_sales (MRLine.withTab k (some rec)) = []) ∧
    (∀ cat, TopProductsJob.mapper_aggregate_by_product cat MRLine.noTab = []) ∧
    (∀ cat k, TopProductsJob.mapper_aggregate_by_product cat (MRLine.withTab k none) = []) ∧
    (∀ cat k pl, stripQuotes k ≠ "CLEAN" →
      TopProductsJob.mapper_aggregate_by_product cat (MRLine.withTab k pl) = []) := by
  refine ⟨rfl, fun k => ?_, fun k pl h => ?_, fun k rec h => ?_, fun cat => rfl,
    fun cat k => ?_, fun cat k pl h => ?_⟩
  · unfold SalesAnalysisJob.mapper_parse_sales
    dsimp only
    split <;> rfl
  · unfold SalesAnalysisJob.mapper_parse_sales
    dsimp only
    rw [if_pos h]
  · unfold SalesAnalysisJob.mapper_parse_sales
    dsimp only
    split
    · rfl
    · rw [h]
  · unfold TopProductsJob.mapper_aggregate_by_product
    dsimp only
    split <;> rfl
  · unfold TopProductsJob.mapper_aggregate_by_product
    dsimp only
    rw [if_pos h]

/-- C10 witness: a `REJECT`-tagged line yields no emission from the sales
mapper. -/
theorem second_stage_mappers_silent_witness :
    SalesAnalysisJob.mapper_parse_sales (MRLine.withTab "REJECT" none) = [] :=
  second_stage_mappers_silent.2.2.1 "REJECT" none (by decide)
